import Mathlib

/-!
Shallow embedding of the MIR parity tooling
(`scripts/compare_mir_dumps.py` and `scripts/check_mir_parity.py`).

Strings are modelled as Lean `String`/`List Char`; Python floats are
modelled as exact rationals `ℚ` (every quantity involved is a finite
sum/quotient of small integers, so the claims under study are about the
arithmetic structure, not floating-point rounding); Python dicts keyed
by strings are modelled as association lists in insertion order.
-/

namespace MirCompare

/-- Python `str.strip()`: drop leading and trailing whitespace. -/
def pyStrip (l : List Char) : List Char :=
  ((l.dropWhile Char.isWhitespace).reverse.dropWhile Char.isWhitespace).reverse

/-- State machine for Python `re.sub(r'_\d+', '_N', s)`.  The flag is
true while the digit run following a just-replaced `_<digits>` match is
still being consumed. -/
def subUDGo : Bool → List Char → List Char
  | _, [] => []
  | skipping, c :: rest =>
    if skipping ∧ c.isDigit then subUDGo true rest
    else if c = '_' ∧ (rest.headD ' ').isDigit then '_' :: 'N' :: subUDGo true rest
    else c :: subUDGo false rest

/-- Python `re.sub(r'_\d+', '_N', s)`: every underscore followed by a
maximal nonempty digit run is replaced by the two characters `_N`
(capital `N`), scanning left to right, non-overlapping. -/
def subUnderscoreDigits (l : List Char) : List Char := subUDGo false l

/-- Fuelled scan for Python `s.replace(pat, '')`.  The fuel starts at
the length of the list and only runs out after the list does, because a
successful nonempty-pattern match consumes at least one character. -/
def removeAllGo (pat : List Char) : Nat → List Char → List Char
  | 0, l => l
  | _ + 1, [] => []
  | fuel + 1, c :: rest =>
    if pat ≠ [] ∧ pat.isPrefixOf (c :: rest) then
      removeAllGo pat fuel ((c :: rest).drop pat.length)
    else
      c :: removeAllGo pat fuel rest

/-- Python `s.replace(pat, '')`: delete every occurrence of `pat`,
scanning left to right, non-overlapping (used only with nonempty
patterns, as in the source). -/
def removeAll (pat l : List Char) : List Char := removeAllGo pat l.length l

/-- Embeds `normalize_statement` (compare_mir_dumps.py, lines 243-256):
strip and lowercase, collapse `_<digits>` to `_N`, then delete all
occurrences of `move ` and of `copy `. -/
def normalize_statement (stmt : String) : String :=
  String.mk (removeAll ("copy ".data)
    (removeAll ("move ".data)
      (subUnderscoreDigits ((pyStrip stmt.data).map Char.toLower))))

/-- Embeds `calculate_statement_similarity` (compare_mir_dumps.py,
lines 226-241): 1.0 when both statement lists are empty, 0.0 when
exactly one is empty, otherwise `len(A∩B)/len(A∪B)` over the sets of
normalized statements, guarded by `union > 0`. -/
def calculate_statement_similarity (llvm_stmts cranelift_stmts : List String) : ℚ :=
  if llvm_stmts = [] ∧ cranelift_stmts = [] then 1
  else if llvm_stmts = [] ∨ cranelift_stmts = [] then 0
  else
    let llvm_set := (llvm_stmts.map normalize_statement).toFinset
    let cranelift_set := (cranelift_stmts.map normalize_statement).toFinset
    let intersection := (llvm_set ∩ cranelift_set).card
    let union := (llvm_set ∪ cranelift_set).card
    if 0 < union then (intersection : ℚ) / union else 0

/-- Reference similarity, written to the words of the spec (§4.4 / C1):
1.0 when both lists are empty; 0.0 when exactly one is empty; otherwise
the Jaccard index of the two sets of distinct normalized statements. -/
def statement_similarity_ref (a b : List String) : ℚ :=
  if a = [] ∧ b = [] then 1
  else if a = [] ∨ b = [] then 0
  else
    ((a.map normalize_statement).toFinset ∩ (b.map normalize_statement).toFinset).card /
      ((a.map normalize_statement).toFinset ∪ (b.map normalize_statement).toFinset).card

example : normalize_statement "_17" = "_N" := by decide
example : normalize_statement "_N" = "_n" := by decide
example : normalize_statement "  Move _3 = Copy _91  " = "_N = _N" := by decide
example : calculate_statement_similarity ["a"] ["a", "b"] = 1/2 := by rfl

/-- True when no character of the list is an underscore immediately
followed by a digit. -/
def noUnderscoreDigitPair : List Char → Bool
  | [] => true
  | [_] => true
  | a :: b :: rest => !(a = '_' && b.isDigit) && noUnderscoreDigitPair (b :: rest)

/-- True when `pat` occurs as a contiguous subsequence of `l`. -/
def hasOccur (pat : List Char) : List Char → Bool
  | [] => pat.isEmpty
  | c :: rest => pat.isPrefixOf (c :: rest) || hasOccur pat rest

/-- A statement string on which every stage of `normalize_statement` is
the identity: no whitespace at either edge, fully lowercase, no
underscore immediately followed by a digit, and no occurrence of the
tokens `move ` or `copy `. -/
def normalReady (s : String) : Prop :=
  (∀ c ∈ s.data.take 1, c.isWhitespace = false) ∧
  (∀ c ∈ s.data.reverse.take 1, c.isWhitespace = false) ∧
  (∀ c ∈ s.data, c.toLower = c) ∧
  noUnderscoreDigitPair s.data = true ∧
  hasOccur ("move ".data) s.data = false ∧
  hasOccur ("copy ".data) s.data = false

instance (s : String) : Decidable (normalReady s) :=
  inferInstanceAs (Decidable
    ((∀ c ∈ s.data.take 1, c.isWhitespace = false) ∧
     (∀ c ∈ s.data.reverse.take 1, c.isWhitespace = false) ∧
     (∀ c ∈ s.data, c.toLower = c) ∧
     noUnderscoreDigitPair s.data = true ∧
     hasOccur ("move ".data) s.data = false ∧
     hasOccur ("copy ".data) s.data = false))

theorem map_toLower_of_lower (l : List Char) (h : ∀ c ∈ l, c.toLower = c) :
    l.map Char.toLower = l := by
  induction l with
  | nil => rfl
  | cons c rest ih =>
    simp only [List.map_cons, h c (List.mem_cons_self c rest)]
    exact congrArg _ (ih fun x hx => h x (List.mem_cons_of_mem c hx))

theorem pyStrip_of_no_edge_ws (l : List Char)
    (h1 : ∀ c ∈ l.take 1, c.isWhitespace = false)
    (h2 : ∀ c ∈ l.reverse.take 1, c.isWhitespace = false) :
    pyStrip l = l := by
  have front : ∀ (m : List Char), (∀ c ∈ m.take 1, c.isWhitespace = false) →
      m.dropWhile Char.isWhitespace = m := by
    intro m hm
    cases m with
    | nil => rfl
    | cons c rest =>
      have : c.isWhitespace = false := hm c (by simp)
      simp [List.dropWhile_cons, this]
  unfold pyStrip
  rw [front l h1, front l.reverse h2, List.reverse_reverse]

theorem subUDGo_false_of_no_pair (l : List Char)
    (h : noUnderscoreDigitPair l = true) : subUDGo false l = l := by
  induction l with
  | nil => rfl
  | cons c rest ih =>
    have hhead : ¬(c = '_' ∧ (rest.headD ' ').isDigit = true) := by
      cases rest with
      | nil => simp
      | cons d rest2 =>
        simp only [noUnderscoreDigitPair, Bool.and_eq_true, Bool.not_eq_true',
          Bool.and_eq_false_iff, decide_eq_false_iff_not] at h
        rcases h.1 with h1 | h1
        · exact fun hc => h1 (by simpa using hc.1)
        · exact fun hc => by simp [List.headD] at hc; exact absurd hc.2 (by simp [h1])
    have htail : noUnderscoreDigitPair rest = true := by
      cases rest with
      | nil => rfl
      | cons d rest2 =>
        simp only [noUnderscoreDigitPair, Bool.and_eq_true] at h
        exact h.2
    simp only [subUDGo, Bool.false_eq_true, false_and, if_false, if_neg hhead]
    exact congrArg _ (ih htail)

theorem removeAllGo_of_no_occur (pat : List Char) (fuel : Nat) (l : List Char)
    (h : hasOccur pat l = false) : removeAllGo pat fuel l = l := by
  induction fuel generalizing l with
  | zero => rfl
  | succ fuel ih =>
    cases l with
    | nil => rfl
    | cons c rest =>
      simp only [hasOccur, Bool.or_eq_false_iff] at h
      have hpre : ¬(pat ≠ [] ∧ pat.isPrefixOf (c :: rest) = true) := by
        rintro ⟨-, hp⟩
        rw [h.1] at hp
        exact Bool.false_ne_true hp
      rw [removeAllGo, if_neg hpre]
      exact congrArg _ (ih rest h.2)

theorem normalize_statement_fixed (s : String) (h : normalReady s) :
    normalize_statement s = s := by
  obtain ⟨h1, h2, h3, h4, h5, h6⟩ := h
  unfold normalize_statement subUnderscoreDigits removeAll
  rw [pyStrip_of_no_edge_ws s.data h1 h2, map_toLower_of_lower s.data h3,
    subUDGo_false_of_no_pair s.data h4,
    removeAllGo_of_no_occur _ _ _ h5, removeAllGo_of_no_occur _ _ _ h6]

/-- C1: `calculate_statement_similarity` agrees with the reference
definition on every pair of statement lists: 1.0 when both lists are
empty, 0.0 when exactly one is empty, and otherwise the Jaccard index
(intersection size over union size) of the two sets of distinct
normalized statements. -/
theorem C1_statement_similarity_eq_ref (a b : List String) :
    calculate_statement_similarity a b = statement_similarity_ref a b := by
  unfold calculate_statement_similarity statement_similarity_ref
  by_cases hab : a = [] ∧ b = []
  · simp [hab]
  · by_cases hor : a = [] ∨ b = []
    · simp [hab, hor]
    · push_neg at hor
      obtain ⟨ha, hb⟩ := hor
      have hne : (a.map normalize_statement).toFinset.Nonempty := by
        cases a with
        | nil => exact absurd rfl ha
        | cons x xs => exact ⟨normalize_statement x, by simp⟩
      have hpos :
          0 < ((a.map normalize_statement).toFinset ∪
            (b.map normalize_statement).toFinset).card :=
        Finset.card_pos.mpr (hne.mono Finset.subset_union_left)
      simp [hab, ha, hb, hpos]

/-- C3 (counterexample): `normalize_statement` is not idempotent.  The
regex pass rewrites `_17` to `_N` with an uppercase `N`, which the
lowercasing step of a second application turns into `_n`. -/
theorem C3_counterexample :
    normalize_statement (normalize_statement "_17") ≠ normalize_statement "_17" := by
  decide

/-- C3 (amended): `normalize_statement` is not idempotent in general;
it is idempotent at every input whose normalized form is a fixed point
of every stage — no whitespace at either edge, fully lowercase (in
particular no uppercase `_N` placeholder introduced by the digit pass),
no underscore immediately followed by a digit, and no occurrence of
`move ` or `copy `.  (Only this sufficiency direction is claimed;
whether the listed conditions are also necessary is not settled
here.) -/
theorem C3_amended_conditional_idempotence (x : String)
    (h : normalReady (normalize_statement x)) :
    normalize_statement (normalize_statement x) = normalize_statement x :=
  normalize_statement_fixed (normalize_statement x) h

/-- Witness for C3's amended theorem at the concrete statement
`x = y + z`, whose normalized form `x = y + z` satisfies all stability
conditions. -/
theorem C3_amended_witness :
    normalize_statement (normalize_statement "x = y + z") = normalize_statement "x = y + z" :=
  C3_amended_conditional_idempotence "x = y + z" (by decide)

/-- Python `s.split(sep)` for a one-character separator: the list of
(possibly empty) chunks between occurrences of `sep`; always nonempty. -/
def pySplitChar (sep : Char) : List Char → List (List Char)
  | [] => [[]]
  | c :: rest =>
    if c = sep then [] :: pySplitChar sep rest
    else
      match pySplitChar sep rest with
      | [] => [[c]]
      | chunk :: chunks => (c :: chunk) :: chunks

theorem pySplitChar_ne_nil (sep : Char) (l : List Char) : pySplitChar sep l ≠ [] := by
  cases l with
  | nil => simp [pySplitChar]
  | cons c rest =>
    by_cases h : c = sep
    · simp [pySplitChar, h]
    · simp only [pySplitChar, if_neg h]
      cases pySplitChar sep rest <;> simp

theorem pySplitChar_of_not_mem (sep : Char) (l : List Char) (h : sep ∉ l) :
    pySplitChar sep l = [l] := by
  induction l with
  | nil => rfl
  | cons c rest ih =>
    have hc : ¬ c = sep := fun hcs => h (hcs ▸ List.mem_cons_self c rest)
    have hrest : sep ∉ rest := fun hm => h (List.mem_cons_of_mem c hm)
    simp [pySplitChar, hc, ih hrest]

/-- The first chunk of `pySplitChar` is the longest `sep`-free front. -/
theorem pySplitChar_head (sep : Char) (l : List Char) :
    (pySplitChar sep l).headD [] = l.takeWhile (fun c => !(c == sep)) := by
  induction l with
  | nil => rfl
  | cons c rest ih =>
    by_cases h : c = sep
    · simp [pySplitChar, h, List.takeWhile_cons]
    · simp only [pySplitChar, if_neg h, List.takeWhile_cons]
      have hb : (!(c == sep)) = true := by simp [h]
      rw [hb]
      simp only [if_true]
      rcases he : pySplitChar sep rest with _ | ⟨chunk, chunks⟩
      · exact absurd he (pySplitChar_ne_nil sep rest)
      · simpa [he] using congrArg (c :: ·) (by simpa [he] using ih)

/-- When `sep` occurs, splitting peels the `sep`-free front and one
separator, then continues. -/
theorem pySplitChar_of_mem (sep : Char) (l : List Char) (h : sep ∈ l) :
    pySplitChar sep l =
      l.takeWhile (fun c => !(c == sep)) ::
        pySplitChar sep ((l.dropWhile (fun c => !(c == sep))).tail) := by
  induction l with
  | nil => cases h
  | cons c rest ih =>
    by_cases hc : c = sep
    · simp [pySplitChar, hc, List.takeWhile_cons, List.dropWhile_cons]
    · have hrest : sep ∈ rest := by
        rcases List.mem_cons.mp h with h1 | h1
        · exact absurd h1.symm hc
        · exact h1
      have hb : (!(c == sep)) = true := by simp [hc]
      simp only [pySplitChar, if_neg hc, List.takeWhile_cons, List.dropWhile_cons, hb, if_true]
      rw [ih hrest]

/-- Embeds `extract_type_from_definition` (compare_mir_dumps.py, lines
139-144): `parts = definition.split(':')`; when there are at least two
parts the result is `parts[1].split('=')[0].strip()`, else `'unknown'`. -/
def extract_type_from_definition (definition : String) : String :=
  match pySplitChar ':' definition.data with
  | _ :: p1 :: _ => String.mk (pyStrip ((pySplitChar '=' p1).headD []))
  | _ => "unknown"

/-- The type extraction claimed by C7, to the claim's words: the
whitespace-stripped substring strictly between the first `:` and the
first `=` after it (to end of line when there is no such `=`), or
`unknown` when the line has no `:`. -/
def type_between_first_colon_and_eq (definition : String) : String :=
  if ':' ∈ definition.data then
    String.mk (pyStrip
      (((definition.data.dropWhile (fun c => !(c == ':'))).tail).takeWhile (fun c => !(c == '='))))
  else "unknown"

/-- The amended type extraction: as claimed, except that the scan for
the declared type also stops at the second `:` of the line, because the
source splits the whole line on every `:` and keeps only the second
part. -/
def type_amended_ref (definition : String) : String :=
  if ':' ∈ definition.data then
    String.mk (pyStrip
      ((((definition.data.dropWhile (fun c => !(c == ':'))).tail).takeWhile
          (fun c => !(c == ':'))).takeWhile (fun c => !(c == '='))))
  else "unknown"

/-- C7 (counterexample): on a definition whose declared type itself
contains a further `:`, the source truncates the type at that colon —
it does not return everything up to the first `=`. -/
theorem C7_counterexample :
    extract_type_from_definition "static x: a:b = c" = "a" ∧
      type_between_first_colon_and_eq "static x: a:b = c" = "a:b" ∧
      extract_type_from_definition "static x: a:b = c" ≠
        type_between_first_colon_and_eq "static x: a:b = c" := by
  refine ⟨by decide, by decide, by decide⟩

/-- C7 (amended): for every definition line, the extracted declared
type is the whitespace-stripped text strictly between the first `:` and
whichever comes first of the second `:` or the first `=` after the
first colon (to end of line when neither occurs); it is `unknown` when
the line contains no `:`. -/
theorem C7_amended_extract_type (definition : String) :
    extract_type_from_definition definition = type_amended_ref definition := by
  unfold extract_type_from_definition type_amended_ref
  by_cases h : ':' ∈ definition.data
  · rw [pySplitChar_of_mem ':' definition.data h]
    set tl := (definition.data.dropWhile (fun c => !(c == ':'))).tail with htl
    rcases he : pySplitChar ':' tl with _ | ⟨chunk, chunks⟩
    · exact absurd he (pySplitChar_ne_nil ':' tl)
    · have hhead : chunk = tl.takeWhile (fun c => !(c == ':')) := by
        have := pySplitChar_head ':' tl
        rw [he] at this
        simpa using this
      simp only [he, hhead, if_pos h, pySplitChar_head]
  · rw [pySplitChar_of_not_mem ':' definition.data h]
    simp [h]

/-- Tokenizer for Python `str.split()` with no separator argument:
maximal whitespace-free runs, in order, empties discarded.  `cur` holds
the token in progress, reversed. -/
def wsTokensGo (cur : List Char) : List Char → List (List Char)
  | [] => if cur.isEmpty then [] else [cur.reverse]
  | c :: rest =>
    if c.isWhitespace then
      if cur.isEmpty then wsTokensGo [] rest
      else cur.reverse :: wsTokensGo [] rest
    else wsTokensGo (c :: cur) rest

/-- Python `s.split()`. -/
def wsTokens (l : List Char) : List (List Char) := wsTokensGo [] l

/-- The last whitespace-separated token of a character list, read from
the right: skip trailing whitespace, then take the maximal
whitespace-free run; `[]` when the list has no token at all. -/
def lastTokenRef (l : List Char) : List Char :=
  ((l.reverse.dropWhile Char.isWhitespace).takeWhile (fun c => !c.isWhitespace)).reverse

/-- `lastTokenRef` with an explicit default for token-free lists. -/
def lastTokenRefD (l : List Char) (d : List Char) : List Char :=
  if lastTokenRef l = [] then d else lastTokenRef l

theorem takeWhile_eq_self_of_all (p : Char → Bool) (l : List Char)
    (h : ∀ c ∈ l, p c = true) : l.takeWhile p = l := by
  induction l with
  | nil => rfl
  | cons c rest ih =>
    rw [List.takeWhile_cons, h c (List.mem_cons_self c rest)]
    simp only [if_true]
    exact congrArg _ (ih fun x hx => h x (List.mem_cons_of_mem c hx))

theorem dropWhile_append_chars (p : Char → Bool) (l₁ l₂ : List Char) :
    (l₁ ++ l₂).dropWhile p = if (l₁.dropWhile p).isEmpty then l₂.dropWhile p
      else l₁.dropWhile p ++ l₂ := by
  induction l₁ with
  | nil => simp
  | cons c rest ih =>
    by_cases h : p c <;> simp [List.dropWhile_cons, h, ih]

theorem dropWhile_head_not (p : Char → Bool) (l : List Char) :
    ∀ x xs, l.dropWhile p = x :: xs → p x = false := by
  induction l with
  | nil => intro x xs h; cases h
  | cons c rest ih =>
    intro x xs h
    rw [List.dropWhile_cons] at h
    by_cases hc : p c
    · rw [if_pos hc] at h; exact ih x xs h
    · rw [if_neg hc] at h
      cases h
      exact Bool.not_eq_true _ ▸ (by simpa using hc)

/-- A nonempty whitespace-stripped front yields a nonempty token. -/
theorem takeWhile_of_dropWhile_ne_nil (l : List Char)
    (h : l.dropWhile Char.isWhitespace ≠ []) :
    (l.dropWhile Char.isWhitespace).takeWhile (fun c => !c.isWhitespace) ≠ [] := by
  rcases hd : l.dropWhile Char.isWhitespace with _ | ⟨x, xs⟩
  · exact absurd hd h
  · have hx : x.isWhitespace = false := dropWhile_head_not Char.isWhitespace l x xs hd
    rw [List.takeWhile_cons, hx]
    simp

/-- `lastTokenRef` ignores a whitespace character prepended at the
front as long as a token remains to its right — and when nothing
non-whitespace is to the right both sides are token-free. -/
theorem lastTokenRef_cons_ws (a : Char) (rest : List Char) (ha : a.isWhitespace = true) :
    lastTokenRef (a :: rest) = lastTokenRef rest := by
  unfold lastTokenRef
  rw [List.reverse_cons, dropWhile_append_chars]
  by_cases h : (rest.reverse.dropWhile Char.isWhitespace).isEmpty
  · rw [if_pos h]
    have h1 : List.dropWhile Char.isWhitespace [a] = [] := by
      simp [List.dropWhile_cons, ha]
    rw [h1, List.isEmpty_iff.mp h]
  · rw [if_neg h, List.takeWhile_append]
    by_cases hfull :
        ((rest.reverse.dropWhile Char.isWhitespace).takeWhile (fun c => !c.isWhitespace)).length =
          (rest.reverse.dropWhile Char.isWhitespace).length
    · rw [if_pos hfull]
      have hstop : ([a].takeWhile (fun c => !c.isWhitespace)) = [] := by
        simp [List.takeWhile_cons, ha]
      have hpre : (rest.reverse.dropWhile Char.isWhitespace).takeWhile
          (fun c => !c.isWhitespace) <+: rest.reverse.dropWhile Char.isWhitespace :=
        List.takeWhile_prefix _
      rw [hstop, List.append_nil, hpre.eq_of_length hfull]
    · rw [if_neg hfull]

/-- Appending `<nonempty non-whitespace token> ` after a whitespace
character at the right end replaces the last token exactly when the
left part is token-free. -/
theorem lastTokenRefD_append (cur : List Char) (a : Char) (rest : List Char)
    (ha : a.isWhitespace = true) (hcur : ∀ c ∈ cur, c.isWhitespace = false)
    (hne : cur ≠ []) (d : List Char) :
    lastTokenRefD (cur.reverse ++ a :: rest) d = lastTokenRefD rest cur.reverse := by
  have hcurall : ∀ c ∈ cur, (!c.isWhitespace) = true := by
    intro c hc
    simp [hcur c hc]
  have hdropcur : cur.dropWhile Char.isWhitespace = cur := by
    cases cur with
    | nil => rfl
    | cons c0 cs =>
      rw [List.dropWhile_cons, hcur c0 (List.mem_cons_self c0 cs)]
      simp
  have hrevlist : (cur.reverse ++ a :: rest).reverse = rest.reverse ++ ([a] ++ cur) := by
    rw [List.reverse_append, List.reverse_cons, List.reverse_reverse, List.append_assoc]
  have hkey : lastTokenRef (cur.reverse ++ a :: rest) =
      if lastTokenRef rest = [] then cur.reverse else lastTokenRef rest := by
    unfold lastTokenRef
    rw [hrevlist, dropWhile_append_chars]
    by_cases h : (rest.reverse.dropWhile Char.isWhitespace).isEmpty
    · rw [if_pos h]
      have h2 : (([a] ++ cur).dropWhile Char.isWhitespace) = cur := by
        simp only [List.singleton_append, List.dropWhile_cons, ha, if_true]
        exact hdropcur
      rw [h2, takeWhile_eq_self_of_all _ cur hcurall]
      have hres : ((rest.reverse.dropWhile Char.isWhitespace).takeWhile
          (fun c => !c.isWhitespace)).reverse = [] := by
        rw [List.isEmpty_iff.mp h]
        rfl
      rw [if_pos hres]
    · rw [if_neg h, List.takeWhile_append]
      have hdnn : rest.reverse.dropWhile Char.isWhitespace ≠ [] := by
        intro hcon
        rw [hcon] at h
        simp at h
      have hres : ((rest.reverse.dropWhile Char.isWhitespace).takeWhile
          (fun c => !c.isWhitespace)).reverse ≠ [] := by
        intro hcon
        exact takeWhile_of_dropWhile_ne_nil rest.reverse hdnn (by
          simpa using congrArg List.reverse hcon)
      rw [if_neg hres]
      by_cases hfull :
          ((rest.reverse.dropWhile Char.isWhitespace).takeWhile (fun c => !c.isWhitespace)).length =
            (rest.reverse.dropWhile Char.isWhitespace).length
      · rw [if_pos hfull]
        have hstop : (([a] ++ cur).takeWhile (fun c => !c.isWhitespace)) = [] := by
          simp [List.takeWhile_cons, ha]
        have hpre : (rest.reverse.dropWhile Char.isWhitespace).takeWhile
            (fun c => !c.isWhitespace) <+: rest.reverse.dropWhile Char.isWhitespace :=
          List.takeWhile_prefix _
        rw [hstop, List.append_nil, hpre.eq_of_length hfull]
      · rw [if_neg hfull]
  unfold lastTokenRefD
  rw [hkey]
  by_cases hrest : lastTokenRef rest = []
  · rw [if_pos hrest, if_neg (by simpa using hne)]
  · rw [if_neg hrest, if_neg hrest]

/-- Main invariant of the `str.split()` tokenizer: the last token it
produces is the last whitespace-separated token of the processed text
(accumulator included), with default `d` when there is none. -/
theorem wsTokensGo_getLastD (l : List Char) :
    ∀ (cur d : List Char), (∀ c ∈ cur, c.isWhitespace = false) →
      (wsTokensGo cur l).getLastD d = lastTokenRefD (cur.reverse ++ l) d := by
  induction l with
  | nil =>
    intro cur d hcur
    cases cur with
    | nil => rfl
    | cons c0 cs =>
      unfold wsTokensGo
      simp only [List.isEmpty_cons, List.append_nil]
      unfold lastTokenRefD lastTokenRef
      rw [List.reverse_reverse]
      have hdropcur : (c0 :: cs).dropWhile Char.isWhitespace = c0 :: cs := by
        rw [List.dropWhile_cons, hcur c0 (List.mem_cons_self c0 cs)]
        simp
      rw [hdropcur, takeWhile_eq_self_of_all _ (c0 :: cs) (by
        intro c hc; simp [hcur c hc])]
      simp
  | cons a rest ih =>
    intro cur d hcur
    by_cases ha : a.isWhitespace
    · unfold wsTokensGo
      rw [if_pos ha]
      cases cur with
      | nil =>
        simp only [List.isEmpty_nil, if_true, List.reverse_nil, List.nil_append]
        rw [ih [] d (by intro c hc; cases hc)]
        simp only [List.reverse_nil, List.nil_append]
        unfold lastTokenRefD
        rw [lastTokenRef_cons_ws a rest ha]
      | cons c0 cs =>
        simp only [List.isEmpty_cons, Bool.false_eq_true, if_false]
        rw [List.getLastD_cons, ih [] ((c0 :: cs).reverse) (by intro c hc; cases hc)]
        simp only [List.reverse_nil, List.nil_append]
        exact (lastTokenRefD_append (c0 :: cs) a rest ha hcur (by simp) d).symm
    · unfold wsTokensGo
      rw [if_neg ha]
      rw [ih (a :: cur) d (by
        intro c hc
        rcases List.mem_cons.mp hc with h1 | h1
        · rw [h1]; simpa using ha
        · exact hcur c h1)]
      rw [List.reverse_cons, List.append_assoc, List.singleton_append]

/-- Embeds the `name` field computed by `extract_globals`
(compare_mir_dumps.py, line 121): `stripped.split('=')[0].split()[-1]`.
(The `[-1]` index on an empty token list would raise in Python; that
case is modelled as the empty string and is unreachable for recognized
lines, which always carry a `static`/`const` token.) -/
def globalName (stripped : List Char) : String :=
  String.mk ((wsTokens ((pySplitChar '=' stripped).headD [])).getLastD [])

/-- One entry of the `globals` list built by `extract_globals`. -/
structure GlobalEntry where
  definition : String
  name : String
  type : String
deriving DecidableEq

/-- Embeds `extract_globals` (compare_mir_dumps.py, lines 113-124):
every line whose stripped text starts with `static ` or `const `
becomes a global with the raw definition, the extracted name and the
extracted type. -/
def extract_globals (content : String) : List GlobalEntry :=
  (pySplitChar '\n' content.data).filterMap fun line =>
    let stripped := pyStrip line
    if "static ".data.isPrefixOf stripped || "const ".data.isPrefixOf stripped then
      some { definition := String.mk stripped
             name := globalName stripped
             type := extract_type_from_definition (String.mk stripped) }
    else none

/-- Python-dict key order: first occurrence wins, later duplicates are
dropped.  (CPython iterates `set(a) | set(b)` in an unspecified order;
the properties proved below do not depend on the order chosen, and this
model fixes first-encounter order.) -/
def dictKeys (names : List String) : List String :=
  names.foldl (fun acc n => if n ∈ acc then acc else acc ++ [n]) []

/-- Python-dict lookup after `{g['name']: g for g in gs}`: the last
entry with the given name wins. -/
def dictGetGlobal (gs : List GlobalEntry) (n : String) : Option GlobalEntry :=
  (gs.filter (fun g => g.name == n)).getLast?

/-- Per-name detail record of `compare_globals`. -/
structure GlobalDetail where
  type_match : Bool
  llvm_type : String
  cranelift_type : String
deriving DecidableEq

/-- Result record of `compare_globals`. -/
structure GlobalComparison where
  match_count : Nat
  mismatch_count : Nat
  missing_in_llvm : List String
  missing_in_cranelift : List String
  details : List (String × GlobalDetail)
deriving DecidableEq

/-- Embeds `compare_globals` (compare_mir_dumps.py, lines 258-297):
keyed by the *extracted name token*, names on one side only go to the
missing lists, names on both sides get a type-equality detail. -/
def compare_globals (llvm_globals cranelift_globals : List GlobalEntry) : GlobalComparison :=
  let all_names := dictKeys (llvm_globals.map (·.name) ++ cranelift_globals.map (·.name))
  all_names.foldl (fun comp name =>
    match dictGetGlobal llvm_globals name, dictGetGlobal cranelift_globals name with
    | none, _ => { comp with missing_in_llvm := comp.missing_in_llvm ++ [name] }
    | some _, none => { comp with missing_in_cranelift := comp.missing_in_cranelift ++ [name] }
    | some lg, some cg =>
      let tm := lg.type == cg.type
      { comp with
        match_count := comp.match_count + (if tm then 1 else 0)
        mismatch_count := comp.mismatch_count + (if tm then 0 else 1)
        details := comp.details ++ [(name, ⟨tm, lg.type, cg.type⟩)] })
    ⟨0, 0, [], [], []⟩

example : extract_globals "static counter: u32 = 0" =
    [⟨"static counter: u32 = 0", "u32", "u32"⟩] := by decide

theorem globalName_eq_lastToken (stripped : List Char) :
    globalName stripped =
      String.mk (lastTokenRef (stripped.takeWhile (fun c => !(c == '=')))) := by
  unfold globalName wsTokens
  rw [pySplitChar_head, wsTokensGo_getLastD _ [] [] (by intro c hc; cases hc)]
  simp only [List.reverse_nil, List.nil_append]
  unfold lastTokenRefD
  by_cases h : lastTokenRef (stripped.takeWhile fun c => !(c == '=')) = []
  · rw [if_pos h, h]
  · rw [if_neg h]

/-- C10: every global the parser records has, as its `name`, the last
whitespace-separated token of the definition text before the first `=`
(for `static NAME: TYPE = VALUE` that token is the type text, not the
identifier `NAME`), and `compare_globals` keys its matching on that
token: the same identifier with different types is reported missing on
both sides, while different identifiers with the same type token are
matched into the details map. -/
theorem C10_global_name_is_last_token_before_eq :
    (∀ content : String, ∀ g ∈ extract_globals content,
        g.name = String.mk (lastTokenRef (g.definition.data.takeWhile (fun c => !(c == '='))))) ∧
    (extract_globals "static counter: u32 = 0").map (fun g => g.name) = ["u32"] ∧
    (compare_globals (extract_globals "static counter: u32 = 0")
        (extract_globals "static counter: u64 = 0")).missing_in_llvm = ["u64"] ∧
    (compare_globals (extract_globals "static counter: u32 = 0")
        (extract_globals "static counter: u64 = 0")).missing_in_cranelift = ["u32"] ∧
    (compare_globals (extract_globals "static counter: u32 = 0")
        (extract_globals "static total: u32 = 5")).details.map Prod.fst = ["u32"] := by
  refine ⟨?_, by decide, by decide, by decide, by decide⟩
  intro content g hg
  unfold extract_globals at hg
  rcases List.mem_filterMap.mp hg with ⟨line, -, hsome⟩
  simp only at hsome
  split at hsome
  · cases hsome
    exact globalName_eq_lastToken (pyStrip line)
  · cases hsome

/-- Witness for C10's universally quantified part at the line
`static counter: u32 = 0`. -/
theorem C10_witness :
    ({ definition := "static counter: u32 = 0", name := "u32", type := "u32" } :
        GlobalEntry).name =
      String.mk (lastTokenRef
        (("static counter: u32 = 0" : String).data.takeWhile (fun c => !(c == '=')))) :=
  C10_global_name_is_last_token_before_eq.1 "static counter: u32 = 0"
    { definition := "static counter: u32 = 0", name := "u32", type := "u32" }
    (by decide)

/-- Embeds the `name` extraction of a function header
(compare_mir_dumps.py, line 52): `stripped.split('(')[0].split()[-1]`. -/
def functionName (stripped : List Char) : String :=
  String.mk ((wsTokens ((pySplitChar '(' stripped).headD [])).getLastD [])

/-- Embeds `extract_signature` (compare_mir_dumps.py, lines 94-100):
the slice from the first `(` through the first `)` after it, or `()`
when either parenthesis is absent. -/
def extract_signature (line : List Char) : String :=
  if '(' ∈ line then
    match line.dropWhile (fun c => !(c == '(')) with
    | _ :: rest =>
      if ')' ∈ rest then String.mk ('(' :: (rest.takeWhile (fun c => !(c == ')')) ++ [')']))
      else "()"
    | [] => "()"
  else "()"

/-- The text following the first occurrence of `pat`, when `pat`
occurs (Python `l[l.find(pat) + len(pat):]` guarded by `pat in l`). -/
def afterFirstOccur (pat : List Char) : List Char → Option (List Char)
  | [] => if pat.isEmpty then some [] else none
  | c :: rest =>
    if pat.isPrefixOf (c :: rest) then some ((c :: rest).drop pat.length)
    else afterFirstOccur pat rest

/-- Embeds `extract_attributes` (compare_mir_dumps.py, lines 102-111):
the comma-separated, stripped pieces between `#[` and the next `]`, or
`[]` when `#[` is absent or unterminated. -/
def extract_attributes (line : List Char) : List String :=
  match afterFirstOccur ("#[".data) line with
  | none => []
  | some after =>
    if ']' ∈ after then
      (pySplitChar ',' (after.takeWhile (fun c => !(c == ']')))).map
        (fun a => String.mk (pyStrip a))
    else []

/-- The terminator introducer keywords of compare_mir_dumps.py line 78. -/
def terminatorKeywords : List String :=
  ["return", "unwind", "goto", "switchInt", "resume", "terminate", "assert"]

def isTerminatorLine (stripped : List Char) : Bool :=
  terminatorKeywords.any (fun t => t.data.isPrefixOf stripped)

/-- A parsed basic block. -/
structure Block where
  name : String
  statements : List String
  terminator : Option String
deriving DecidableEq

/-- A parsed function. -/
structure Function where
  name : String
  signature : String
  blocks : List Block
  attributes : List String
deriving DecidableEq

/-- The loop state of `extract_functions`: finished functions plus the
two cursors. -/
structure ParseState where
  functions : List Function
  current_function : Option Function
  current_block : Option Block
deriving DecidableEq

/-- One iteration of the line loop of `extract_functions`
(compare_mir_dumps.py, lines 43-84).  Note that the function-header
branch appends the in-progress function *without* flushing the open
block, and leaves `current_block` untouched, exactly as the source
does. -/
def processLine (st : ParseState) (line : List Char) : ParseState :=
  let stripped := pyStrip line
  if "fn ".data.isPrefixOf stripped || "const fn ".data.isPrefixOf stripped then
    { functions := st.functions ++ st.current_function.toList
      current_function := some
        { name := functionName stripped
          signature := extract_signature stripped
          blocks := []
          attributes := extract_attributes stripped }
      current_block := st.current_block }
  else
    match st.current_function with
    | none => st
    | some f =>
      if (stripped.getLast? == some ':') && !("\x7d".data.isPrefixOf stripped) then
        match st.current_block with
        | some b =>
          { functions := st.functions
            current_function := some { f with blocks := f.blocks ++ [b] }
            current_block := some ⟨String.mk stripped.dropLast, [], none⟩ }
        | none =>
          { st with current_block := some ⟨String.mk stripped.dropLast, [], none⟩ }
      else
        match st.current_block with
        | none => st
        | some b =>
          if isTerminatorLine stripped then
            { st with current_block := some { b with terminator := some (String.mk stripped) } }
          else if !stripped.isEmpty && !("//".data.isPrefixOf stripped) &&
              !("#".data.isPrefixOf stripped) then
            { st with current_block := some { b with statements := b.statements ++ [String.mk stripped] } }
          else st

/-- Embeds `extract_functions` (compare_mir_dumps.py, lines 35-92):
fold the line loop, then flush the still-open block into the still-open
function and that function into the module. -/
def extract_functions (content : String) : List Function :=
  let final := (pySplitChar '\n' content.data).foldl processLine ⟨[], none, none⟩
  match final.current_function, final.current_block with
  | some f, some b => final.functions ++ [{ f with blocks := f.blocks ++ [b] }]
  | some f, none => final.functions ++ [f]
  | none, _ => final.functions

/-- C2 is contradicted by the source: at a function header the open
block is neither flushed into the in-progress function nor reset, so it
is later attached to the *next* function.  On the dump below, `bb0` was
opened under `fn f` but ends up in `g`'s block list, and `f` is
recorded with no blocks at all. -/
theorem C2_header_does_not_flush_open_block :
    extract_functions "fn f():\nbb0:\nx = 1\nfn g():\nbb1:\ny = 2" =
      [{ name := "f", signature := "()", blocks := [], attributes := [] },
       { name := "g", signature := "()",
         blocks := [{ name := "bb0", statements := ["x = 1"], terminator := none },
                    { name := "bb1", statements := ["y = 2"], terminator := none }],
         attributes := [] }] := by
  decide

/-- Result record of `compare_basic_blocks`, extended with the presence
flags read by the parity checker.  For blocks matched on both sides the
Python dict carries no presence keys and `.get(..., True)` reads them
as true; for one-sided blocks the dict carries only the presence flags
and the forced 0.0 similarity, and the remaining fields here take the
values the checker's `.get` defaults would produce (they are never
read). -/
structure BlockComparison where
  present_in_llvm : Bool
  present_in_cranelift : Bool
  statement_count_match : Bool
  terminator_match : Bool
  statement_similarity : ℚ
  llvm_statement_count : Nat
  cranelift_statement_count : Nat
deriving DecidableEq

/-- Embeds `compare_basic_blocks` (compare_mir_dumps.py, lines 211-224). -/
def compare_basic_blocks (llvm_block cranelift_block : Block) : BlockComparison :=
  { present_in_llvm := true
    present_in_cranelift := true
    statement_count_match := llvm_block.statements.length == cranelift_block.statements.length
    terminator_match := llvm_block.terminator == cranelift_block.terminator
    statement_similarity :=
      calculate_statement_similarity llvm_block.statements cranelift_block.statements
    llvm_statement_count := llvm_block.statements.length
    cranelift_statement_count := cranelift_block.statements.length }

/-- Python-dict lookup after `{b['name']: b for b in blocks}`. -/
def dictGetBlock (bs : List Block) (n : String) : Option Block :=
  (bs.filter (fun b => b.name == n)).getLast?

/-- Result record of `compare_single_function`. -/
structure FunctionComparison where
  signature_match : Bool
  attribute_match : Bool
  block_count_match : Bool
  blocks : List (String × BlockComparison)
  llvm_block_count : Nat
  cranelift_block_count : Nat
deriving DecidableEq

/-- Embeds `compare_single_function` (compare_mir_dumps.py, lines
177-209): signature by raw equality, attributes as sets, blocks keyed
by name with one-sided names forced to presence flags and similarity
0.0. -/
def compare_single_function (llvm_func cranelift_func : Function) : FunctionComparison :=
  let all_block_names :=
    dictKeys (llvm_func.blocks.map (·.name) ++ cranelift_func.blocks.map (·.name))
  { signature_match := llvm_func.signature == cranelift_func.signature
    attribute_match := decide (llvm_func.attributes.toFinset = cranelift_func.attributes.toFinset)
    block_count_match := llvm_func.blocks.length == cranelift_func.blocks.length
    blocks := all_block_names.map (fun n =>
      match dictGetBlock llvm_func.blocks n, dictGetBlock cranelift_func.blocks n with
      | some lb, some cb => (n, compare_basic_blocks lb cb)
      | lbo, cbo =>
        (n, { present_in_llvm := lbo.isSome
              present_in_cranelift := cbo.isSome
              statement_count_match := false
              terminator_match := false
              statement_similarity := 0
              llvm_statement_count := 0
              cranelift_statement_count := 0 }))
    llvm_block_count := llvm_func.blocks.length
    cranelift_block_count := cranelift_func.blocks.length }

/-- Result record of `compare_functions`. -/
structure ModuleFunctionComparison where
  functions : List (String × FunctionComparison)
  missing_in_llvm : List String
  missing_in_cranelift : List String
  total_functions : Nat
deriving DecidableEq

/-- Python-dict lookup after `{f['name']: f for f in funcs}`. -/
def dictGetFunction (fs : List Function) (n : String) : Option Function :=
  (fs.filter (fun f => f.name == n)).getLast?

/-- The body of the name loop of `compare_functions`
(compare_mir_dumps.py, lines 160-173). -/
def compareFunctionsStep (llvm_funcs cranelift_funcs : List Function)
    (comp : ModuleFunctionComparison) (name : String) : ModuleFunctionComparison :=
  match dictGetFunction llvm_funcs name, dictGetFunction cranelift_funcs name with
  | none, _ => { comp with missing_in_llvm := comp.missing_in_llvm ++ [name] }
  | some _, none => { comp with missing_in_cranelift := comp.missing_in_cranelift ++ [name] }
  | some lf, some cf =>
    { comp with functions := comp.functions ++ [(name, compare_single_function lf cf)] }

/-- Embeds `compare_functions` (compare_mir_dumps.py, lines 146-175). -/
def compare_functions (llvm_funcs cranelift_funcs : List Function) : ModuleFunctionComparison :=
  let all_function_names :=
    dictKeys (llvm_funcs.map (·.name) ++ cranelift_funcs.map (·.name))
  all_function_names.foldl (compareFunctionsStep llvm_funcs cranelift_funcs)
    ⟨[], [], [], all_function_names.length⟩

/-- The discrepancy classifications emitted by check_mir_parity.py.
The Python code emits formatted message strings; the constructors carry
the same distinguishing data (the decimal formatting of the message
text is not modelled). -/
inductive Finding where
  | sigMismatch (func : String)
  | attrMismatch (func : String)
  | blockCountMismatch (func : String)
  | lowSimilarity (func block : String) (similarity : ℚ)
  | blockMissingLLVM (func block : String)
  | blockMissingCranelift (func block : String)
  | globalMissingLLVM (name : String)
  | globalMissingCranelift (name : String)
  | globalTypeMismatch (name llvm_type cranelift_type : String)
deriving DecidableEq

/-- Result record of `check_function_parity` / `check_global_parity`. -/
structure ParityResult where
  issues : List Finding
  warnings : List Finding
  total_issues : Nat
  total_warnings : Nat
deriving DecidableEq

/-- The per-block body of the loop in `check_function_parity`
(check_mir_parity.py, lines 54-65): a low-similarity warning for every
block entry below 0.8, then an issue per absent side. -/
def blockParityStep (fname : String) (acc : List Finding × List Finding)
    (nb : String × BlockComparison) : List Finding × List Finding :=
  let warnings := if nb.2.statement_similarity < 4/5 then
    acc.2 ++ [Finding.lowSimilarity fname nb.1 nb.2.statement_similarity] else acc.2
  let issues := if nb.2.present_in_llvm then acc.1
    else acc.1 ++ [Finding.blockMissingLLVM fname nb.1]
  let issues := if nb.2.present_in_cranelift then issues
    else issues ++ [Finding.blockMissingCranelift fname nb.1]
  (issues, warnings)

/-- The per-function body of the loop in `check_function_parity`
(check_mir_parity.py, lines 40-65). -/
def functionParityStep (acc : List Finding × List Finding)
    (nf : String × FunctionComparison) : List Finding × List Finding :=
  let issues := if nf.2.signature_match then acc.1 else acc.1 ++ [Finding.sigMismatch nf.1]
  let warnings := if nf.2.attribute_match then acc.2 else acc.2 ++ [Finding.attrMismatch nf.1]
  let issues := if nf.2.block_count_match then issues
    else issues ++ [Finding.blockCountMismatch nf.1]
  nf.2.blocks.foldl (blockParityStep nf.1) (issues, warnings)

/-- Embeds `check_function_parity` (check_mir_parity.py, lines 35-72).
Note: it iterates only the matched-function map; the
`missing_in_llvm` / `missing_in_cranelift` lists of the comparison are
never consulted. -/
def check_function_parity (function_comparison : ModuleFunctionComparison) : ParityResult :=
  let final := function_comparison.functions.foldl functionParityStep ([], [])
  ⟨final.1, final.2, final.1.length, final.2.length⟩

/-- Embeds `check_global_parity` (check_mir_parity.py, lines 74-103). -/
def check_global_parity (global_comparison : GlobalComparison) : ParityResult :=
  let issues := global_comparison.missing_in_llvm.foldl
    (fun acc name => acc ++ [Finding.globalMissingLLVM name]) []
  let issues := global_comparison.missing_in_cranelift.foldl
    (fun acc name => acc ++ [Finding.globalMissingCranelift name]) issues
  let warnings := global_comparison.details.foldl
    (fun acc nd => if nd.2.type_match then acc
      else acc ++ [Finding.globalTypeMismatch nd.1 nd.2.llvm_type nd.2.cranelift_type]) []
  ⟨issues, warnings, issues.length, warnings.length⟩

/-- One entry of `files_compared` (compare_mir_dumps.py, lines
415-420), as read back by check_mir_parity.py. -/
structure FileEntry where
  file : String
  similarity : ℚ
  function_comparison : ModuleFunctionComparison
  global_comparison : GlobalComparison
deriving DecidableEq

/-- The comparison-result document shared by the two scripts (the
unused top-level `function_comparison` / `global_comparison` slots of
compare_mir_dumps.py line 374-380, which stay empty, are omitted). -/
structure ComparisonResults where
  files_compared : List FileEntry
  overall_similarity : ℚ
  issues_found : List String
deriving DecidableEq

/-- Embeds the per-file similarity collection of `main`
(compare_mir_dumps.py, lines 405-409): every block entry's
`statement_similarity`, over all matched functions, in loop order. -/
def file_similarities (function_comparison : ModuleFunctionComparison) : List ℚ :=
  function_comparison.functions.foldl (fun acc nf =>
    nf.2.blocks.foldl (fun a nb => a ++ [nb.2.statement_similarity]) acc) []

/-- Embeds the per-file similarity of `main` (compare_mir_dumps.py,
line 411): the average of the collected similarities, 0.0 when there
are none. -/
def file_similarity (function_comparison : ModuleFunctionComparison) : ℚ :=
  let sims := file_similarities function_comparison
  if sims.isEmpty then 0 else sims.sum / sims.length

/-- Embeds `calculate_overall_parity` (check_mir_parity.py, lines
23-33): running total and count over the compared files, quotient
guarded by `file_count > 0`. -/
def calculate_overall_parity (comparison : ComparisonResults) : ℚ :=
  let acc := comparison.files_compared.foldl
    (fun (tc : ℚ × Nat) fr => (tc.1 + fr.similarity, tc.2 + 1)) ((0 : ℚ), (0 : Nat))
  if 0 < acc.2 then acc.1 / acc.2 else 0

/-- Embeds the exit decision of `main` (check_mir_parity.py, lines
212-219): status 0 iff the overall parity reaches the threshold,
status 1 otherwise. -/
def gate_exit_code (comparison : ComparisonResults) (threshold : ℚ) : Nat :=
  if calculate_overall_parity comparison ≥ threshold then 0 else 1

/-- The argparse default for `--threshold`
(check_mir_parity.py, line 197). -/
def default_threshold : ℚ := 0.95

/-- Embeds the Critical Issues accumulation of
`generate_parity_report` (check_mir_parity.py, lines 164-167): per
compared-file entry it extends the collected list with the run-global
`issues_found` list. -/
def report_critical_issues (comparison : ComparisonResults) : List String :=
  comparison.files_compared.foldl (fun acc _ => acc ++ comparison.issues_found) []

/-- Generic: a fold that appends `f x` per element is `acc ++ bind`. -/
theorem foldl_append_bind {α β : Type} (f : α → List β) (l : List α) (acc : List β) :
    l.foldl (fun a x => a ++ f x) acc = acc ++ l.flatMap f := by
  induction l generalizing acc with
  | nil => simp
  | cons x xs ih => simp [List.foldl_cons, ih, List.append_assoc]

/-- Generic: a fold that appends a singleton per element is `acc ++ map`. -/
theorem foldl_append_singleton {α β : Type} (f : α → β) (l : List α) (acc : List β) :
    l.foldl (fun a x => a ++ [f x]) acc = acc ++ l.map f := by
  induction l generalizing acc with
  | nil => simp
  | cons x xs ih => simp [List.foldl_cons, ih, List.append_assoc]

/-- The issue findings one block entry contributes (check_mir_parity.py,
lines 61-65): one per side the block is absent from. -/
def blockIssuesOf (fname : String) (nb : String × BlockComparison) : List Finding :=
  (if nb.2.present_in_llvm then [] else [Finding.blockMissingLLVM fname nb.1]) ++
  (if nb.2.present_in_cranelift then [] else [Finding.blockMissingCranelift fname nb.1])

/-- The warning findings one block entry contributes
(check_mir_parity.py, lines 54-59): a low-similarity warning whenever
`statement_similarity < 0.8`, whether or not the block is present on
both sides. -/
def blockWarningsOf (fname : String) (nb : String × BlockComparison) : List Finding :=
  if nb.2.statement_similarity < 4/5 then
    [Finding.lowSimilarity fname nb.1 nb.2.statement_similarity] else []

/-- The issue findings one matched function contributes. -/
def functionIssuesOf (nf : String × FunctionComparison) : List Finding :=
  (if nf.2.signature_match then [] else [Finding.sigMismatch nf.1]) ++
  (if nf.2.block_count_match then [] else [Finding.blockCountMismatch nf.1]) ++
  nf.2.blocks.flatMap (blockIssuesOf nf.1)

/-- The warning findings one matched function contributes. -/
def functionWarningsOf (nf : String × FunctionComparison) : List Finding :=
  (if nf.2.attribute_match then [] else [Finding.attrMismatch nf.1]) ++
  nf.2.blocks.flatMap (blockWarningsOf nf.1)

/-- The declarative form of the classification `check_function_parity`
performs: only matched functions contribute; a function present on one
side only contributes nothing. -/
def function_parity_issues_ref (fc : ModuleFunctionComparison) : List Finding :=
  fc.functions.flatMap functionIssuesOf

def function_parity_warnings_ref (fc : ModuleFunctionComparison) : List Finding :=
  fc.functions.flatMap functionWarningsOf

/-- The declarative form of `check_global_parity`'s issues. -/
def global_parity_issues_ref (gc : GlobalComparison) : List Finding :=
  gc.missing_in_llvm.map Finding.globalMissingLLVM ++
    gc.missing_in_cranelift.map Finding.globalMissingCranelift

/-- The declarative form of `check_global_parity`'s warnings. -/
def global_parity_warnings_ref (gc : GlobalComparison) : List Finding :=
  gc.details.flatMap fun nd => if nd.2.type_match then []
    else [Finding.globalTypeMismatch nd.1 nd.2.llvm_type nd.2.cranelift_type]

theorem foldl_blockParityStep (fname : String) (bs : List (String × BlockComparison)) :
    ∀ i w, bs.foldl (blockParityStep fname) (i, w) =
      (i ++ bs.flatMap (blockIssuesOf fname), w ++ bs.flatMap (blockWarningsOf fname)) := by
  induction bs with
  | nil => intro i w; simp
  | cons nb rest ih =>
    intro i w
    rw [List.foldl_cons]
    have hstep : blockParityStep fname (i, w) nb =
        (i ++ blockIssuesOf fname nb, w ++ blockWarningsOf fname nb) := by
      unfold blockParityStep blockIssuesOf blockWarningsOf
      by_cases h1 : nb.2.statement_similarity < 4/5 <;>
        by_cases h2 : nb.2.present_in_llvm <;>
          by_cases h3 : nb.2.present_in_cranelift <;>
            simp [h1, h2, h3]
    rw [hstep, ih]
    simp [List.flatMap_cons, List.append_assoc]

theorem foldl_functionParityStep (fns : List (String × FunctionComparison)) :
    ∀ i w, fns.foldl functionParityStep (i, w) =
      (i ++ fns.flatMap functionIssuesOf, w ++ fns.flatMap functionWarningsOf) := by
  induction fns with
  | nil => intro i w; simp
  | cons nf rest ih =>
    intro i w
    rw [List.foldl_cons]
    have hstep : functionParityStep (i, w) nf =
        (i ++ functionIssuesOf nf, w ++ functionWarningsOf nf) := by
      unfold functionParityStep functionIssuesOf functionWarningsOf
      rw [foldl_blockParityStep]
      by_cases h1 : nf.2.signature_match <;> by_cases h2 : nf.2.attribute_match <;>
        by_cases h3 : nf.2.block_count_match <;> simp [h1, h2, h3, List.append_assoc]
    rw [hstep, ih]
    simp [List.flatMap_cons, List.append_assoc]

/-- A module pair for exercising the parity checker: the LLVM side has
`f` (with block `bb0`) and `g`; the Cranelift side has only `f`, with
no blocks. -/
def parityDemoLLVM : List Function :=
  [{ name := "f", signature := "()",
     blocks := [{ name := "bb0", statements := ["x = 1"], terminator := none }],
     attributes := [] },
   { name := "g", signature := "()", blocks := [], attributes := [] }]

def parityDemoCranelift : List Function :=
  [{ name := "f", signature := "()", blocks := [], attributes := [] }]

/-- C4 (counterexample): on the module pair above, the function `g` is
present only on the LLVM side, yet `check_function_parity` emits no
issue for it (its missing-function lists are never read); and the
one-sided block `bb0` receives a low-similarity *warning* on top of its
missing-block issue, contradicting "a low-similarity warning is
produced only for blocks present on both sides". -/
theorem C4_counterexample :
    (compare_functions parityDemoLLVM parityDemoCranelift).missing_in_cranelift = ["g"] ∧
    (check_function_parity (compare_functions parityDemoLLVM parityDemoCranelift)).issues =
      [Finding.blockCountMismatch "f", Finding.blockMissingCranelift "f" "bb0"] ∧
    (check_function_parity (compare_functions parityDemoLLVM parityDemoCranelift)).warnings =
      [Finding.lowSimilarity "f" "bb0" 0] ∧
    (compare_functions parityDemoLLVM parityDemoCranelift).functions.map
        (fun nf => (nf.1, nf.2.blocks.map
          (fun nb => (nb.1, nb.2.present_in_llvm, nb.2.present_in_cranelift)))) =
      [("f", [("bb0", true, false)])] := by
  refine ⟨rfl, rfl, ?_, rfl⟩
  have hfns : (compare_functions parityDemoLLVM parityDemoCranelift).functions =
      [("f", { signature_match := true, attribute_match := true, block_count_match := false,
               blocks := [("bb0", { present_in_llvm := true, present_in_cranelift := false,
                                    statement_count_match := false, terminator_match := false,
                                    statement_similarity := 0, llvm_statement_count := 0,
                                    cranelift_statement_count := 0 })],
               llvm_block_count := 1, cranelift_block_count := 0 })] := rfl
  unfold check_function_parity
  rw [foldl_functionParityStep, hfns]
  norm_num [functionWarningsOf, blockWarningsOf]

/-- C4 (amended): the classifier emits, per *matched* function, a
signature-mismatch issue and a block-count-mismatch issue, plus a
missing-block issue per side a block entry is absent from; its warnings
are an attribute-mismatch per matched function, a low-similarity
warning for *every* block entry with `statement_similarity < 0.8`
(one-sided blocks included, since their forced 0.0 is below 0.8), a
missing-global issue per side, and a global-type-mismatch warning; a
function present on only one side contributes no issue and no warning,
because the checker never reads the missing-function lists. -/
theorem C4_amended_classifier_characterization :
    (∀ fc : ModuleFunctionComparison,
        (check_function_parity fc).issues = function_parity_issues_ref fc ∧
        (check_function_parity fc).warnings = function_parity_warnings_ref fc) ∧
    (∀ gc : GlobalComparison,
        (check_global_parity gc).issues = global_parity_issues_ref gc ∧
        (check_global_parity gc).warnings = global_parity_warnings_ref gc) := by
  constructor
  · intro fc
    unfold check_function_parity function_parity_issues_ref function_parity_warnings_ref
    rw [foldl_functionParityStep]
    exact ⟨by simp, by simp⟩
  · intro gc
    have hcond : (fun (acc : List Finding) (nd : String × GlobalDetail) =>
        if nd.2.type_match then acc
        else acc ++ [Finding.globalTypeMismatch nd.1 nd.2.llvm_type nd.2.cranelift_type]) =
        (fun acc nd => acc ++ (if nd.2.type_match then []
          else [Finding.globalTypeMismatch nd.1 nd.2.llvm_type nd.2.cranelift_type])) := by
      funext acc nd
      by_cases h : nd.2.type_match <;> simp [h]
    constructor
    · simp only [check_global_parity, global_parity_issues_ref]
      rw [foldl_append_singleton, foldl_append_singleton]
      simp
    · simp only [check_global_parity, global_parity_warnings_ref]
      rw [hcond, foldl_append_bind]
      simp

/-- The similarity of every block entry of every matched function, as
the spec words it (C5). -/
def all_block_similarities (fc : ModuleFunctionComparison) : List ℚ :=
  fc.functions.flatMap fun nf => nf.2.blocks.map fun nb => nb.2.statement_similarity

/-- The unweighted arithmetic mean with a 0.0 default for the empty
list — the reference aggregation of the spec. -/
def mean_or_zero (l : List ℚ) : ℚ := if l = [] then 0 else l.sum / l.length

theorem file_similarities_eq (fc : ModuleFunctionComparison) :
    file_similarities fc = all_block_similarities fc := by
  unfold file_similarities all_block_similarities
  have houter : (fun (acc : List ℚ) (nf : String × FunctionComparison) =>
      nf.2.blocks.foldl (fun a nb => a ++ [nb.2.statement_similarity]) acc) =
      (fun acc nf => acc ++ nf.2.blocks.map (fun nb => nb.2.statement_similarity)) := by
    funext acc nf
    exact foldl_append_singleton _ _ _
  rw [houter, foldl_append_bind]
  simp

theorem file_similarity_eq_mean (fc : ModuleFunctionComparison) :
    file_similarity fc = mean_or_zero (all_block_similarities fc) := by
  unfold file_similarity mean_or_zero
  rw [file_similarities_eq]
  by_cases h : all_block_similarities fc = [] <;>
    simp [h, List.isEmpty_iff]

theorem overall_parity_eq_mean (c : ComparisonResults) :
    calculate_overall_parity c =
      mean_or_zero (c.files_compared.map (fun e => e.similarity)) := by
  unfold calculate_overall_parity mean_or_zero
  have hfold : ∀ (l : List FileEntry) (s : ℚ) (k : Nat),
      l.foldl (fun (tc : ℚ × Nat) fr => (tc.1 + fr.similarity, tc.2 + 1)) (s, k) =
        (s + (l.map (fun e => e.similarity)).sum, k + l.length) := by
    intro l
    induction l with
    | nil => intro s k; simp
    | cons e es ih =>
      intro s k
      rw [List.foldl_cons, ih]
      simp [add_assoc]
      omega
  rw [hfold]
  by_cases h : c.files_compared = []
  · simp [h]
  · have hlen : 0 < c.files_compared.length := List.length_pos.mpr h
    rw [if_pos (by simpa using hlen), if_neg (by simp [h])]
    simp

/-- C5: both aggregation levels are unweighted arithmetic means with a
0.0 default: the per-file similarity is the mean of the
`statement_similarity` of every block entry of every matched function
(the forced 0.0 entries of one-sided blocks included), and the overall
parity is the mean of the per-file similarities; with zero compared
files the overall parity is the value 0.0, returned normally. -/
theorem C5_aggregation_is_unweighted_mean :
    (∀ fc : ModuleFunctionComparison,
        file_similarity fc = mean_or_zero (all_block_similarities fc)) ∧
    (∀ c : ComparisonResults,
        calculate_overall_parity c =
          mean_or_zero (c.files_compared.map (fun e => e.similarity))) ∧
    (∀ c : ComparisonResults, c.files_compared = [] → calculate_overall_parity c = 0) :=
  ⟨file_similarity_eq_mean, overall_parity_eq_mean, fun c h => by
    rw [overall_parity_eq_mean c, h]
    rfl⟩

/-- Witness for C5's zero-files clause at a concrete empty run. -/
theorem C5_witness :
    calculate_overall_parity { files_compared := [], overall_similarity := 0, issues_found := [] } = 0 :=
  C5_aggregation_is_unweighted_mean.2.2
    { files_compared := [], overall_similarity := 0, issues_found := [] } rfl

/-- C6: the gate is binary and non-strict: exit status 0 exactly when
the overall parity is at least the threshold (so a score exactly equal
to the threshold passes), the argparse default threshold is 0.95, and
the verdict is a function of the overall score alone — two runs with
equal overall parity get the same verdict regardless of their issue
lists. -/
theorem C6_gate_is_binary_nonstrict :
    (∀ (c : ComparisonResults) (t : ℚ),
        gate_exit_code c t = 0 ↔ t ≤ calculate_overall_parity c) ∧
    default_threshold = 19/20 ∧
    (∀ c : ComparisonResults, calculate_overall_parity c = default_threshold →
        gate_exit_code c default_threshold = 0) ∧
    (∀ (c₁ c₂ : ComparisonResults) (t : ℚ),
        calculate_overall_parity c₁ = calculate_overall_parity c₂ →
        gate_exit_code c₁ t = gate_exit_code c₂ t) := by
  have hmain : ∀ (c : ComparisonResults) (t : ℚ),
      gate_exit_code c t = 0 ↔ t ≤ calculate_overall_parity c := by
    intro c t
    unfold gate_exit_code
    by_cases h : calculate_overall_parity c ≥ t
    · rw [if_pos h]
      exact iff_of_true rfl h
    · rw [if_neg h]
      exact iff_of_false (by norm_num) h
  refine ⟨hmain, by norm_num [default_threshold], ?_, ?_⟩
  · intro c h
    exact (hmain c default_threshold).mpr (le_of_eq h.symm)
  · intro c₁ c₂ t h
    unfold gate_exit_code
    rw [h]

/-- Witness for C6's hypothesis-bearing clauses: a single file at
exactly the default threshold passes, and two runs of equal overall
parity but different issue lists share a verdict. -/
theorem C6_witness :
    gate_exit_code
      { files_compared :=
          [{ file := "a.mir", similarity := 19/20,
             function_comparison := ⟨[], [], [], 0⟩,
             global_comparison := ⟨0, 0, [], [], []⟩ }],
        overall_similarity := 19/20, issues_found := [] } default_threshold = 0 ∧
    gate_exit_code { files_compared := [], overall_similarity := 0, issues_found := ["x"] } 1 =
      gate_exit_code { files_compared := [], overall_similarity := 0, issues_found := [] } 1 :=
  ⟨C6_gate_is_binary_nonstrict.2.2.1 _ (by norm_num [calculate_overall_parity, default_threshold]),
   C6_gate_is_binary_nonstrict.2.2.2 _ _ 1 rfl⟩

theorem css_bounds (a b : List String) :
    0 ≤ calculate_statement_similarity a b ∧ calculate_statement_similarity a b ≤ 1 := by
  unfold calculate_statement_similarity
  by_cases hab : a = [] ∧ b = []
  · rw [if_pos hab]; norm_num
  · rw [if_neg hab]
    by_cases hor : a = [] ∨ b = []
    · rw [if_pos hor]; norm_num
    · rw [if_neg hor]
      by_cases hu : 0 < ((a.map normalize_statement).toFinset ∪
          (b.map normalize_statement).toFinset).card
      · rw [if_pos hu]
        constructor
        · positivity
        · rw [div_le_one (by exact_mod_cast hu)]
          exact_mod_cast Finset.card_le_card Finset.inter_subset_union
      · rw [if_neg hu]; norm_num

theorem mean_or_zero_bounds (l : List ℚ) (h : ∀ x ∈ l, 0 ≤ x ∧ x ≤ 1) :
    0 ≤ mean_or_zero l ∧ mean_or_zero l ≤ 1 := by
  unfold mean_or_zero
  by_cases hl : l = []
  · rw [if_pos hl]; norm_num
  · rw [if_neg hl]
    have hlen : 0 < (l.length : ℚ) := by
      have := List.length_pos.mpr hl
      exact_mod_cast this
    constructor
    · exact div_nonneg (List.sum_nonneg fun x hx => (h x hx).1) hlen.le
    · rw [div_le_one hlen]
      have hs := List.sum_le_card_nsmul l 1 fun x hx => (h x hx).2
      simpa using hs

theorem compare_single_function_blocks_bounds (lf cf : Function) :
    ∀ nb ∈ (compare_single_function lf cf).blocks,
      0 ≤ nb.2.statement_similarity ∧ nb.2.statement_similarity ≤ 1 := by
  intro nb hnb
  unfold compare_single_function at hnb
  simp only [List.mem_map] at hnb
  obtain ⟨n, -, hEq⟩ := hnb
  rcases h1 : dictGetBlock lf.blocks n with _ | lb <;>
    rcases h2 : dictGetBlock cf.blocks n with _ | cb <;>
      rw [h1, h2] at hEq <;> rw [← hEq]
  · norm_num
  · norm_num
  · norm_num
  · exact css_bounds lb.statements cb.statements

theorem compare_functions_blocks_bounds (lfs cfs : List Function) :
    ∀ nf ∈ (compare_functions lfs cfs).functions, ∀ nb ∈ nf.2.blocks,
      0 ≤ nb.2.statement_similarity ∧ nb.2.statement_similarity ≤ 1 := by
  unfold compare_functions
  have hstep : ∀ (names : List String) (init : ModuleFunctionComparison),
      (∀ nf ∈ init.functions, ∀ nb ∈ nf.2.blocks,
        0 ≤ nb.2.statement_similarity ∧ nb.2.statement_similarity ≤ 1) →
      ∀ nf ∈ (names.foldl (compareFunctionsStep lfs cfs) init).functions,
        ∀ nb ∈ nf.2.blocks,
          0 ≤ nb.2.statement_similarity ∧ nb.2.statement_similarity ≤ 1 := by
    intro names
    induction names with
    | nil => intro init hinit; exact hinit
    | cons n ns ih =>
      intro init hinit
      rw [List.foldl_cons]
      apply ih
      unfold compareFunctionsStep
      rcases dictGetFunction lfs n with _ | lf <;> rcases dictGetFunction cfs n with _ | cf
      · exact hinit
      · exact hinit
      · exact hinit
      · intro nf hnf
        rcases List.mem_append.mp hnf with hold | hnew
        · exact hinit nf hold
        · rw [List.mem_singleton.mp hnew]
          exact compare_single_function_blocks_bounds lf cf
  exact hstep _ _ (by intro nf hnf; cases hnf)

theorem file_similarity_bounds (lfs cfs : List Function) :
    0 ≤ file_similarity (compare_functions lfs cfs) ∧
      file_similarity (compare_functions lfs cfs) ≤ 1 := by
  rw [file_similarity_eq_mean]
  apply mean_or_zero_bounds
  intro x hx
  unfold all_block_similarities at hx
  rcases List.mem_flatMap.mp hx with ⟨nf, hnf, hx2⟩
  rcases List.mem_map.mp hx2 with ⟨nb, hnb, hEq⟩
  rw [← hEq]
  exact compare_functions_blocks_bounds lfs cfs nf hnf nb hnb

theorem overall_parity_bounds (c : ComparisonResults)
    (h : ∀ e ∈ c.files_compared, 0 ≤ e.similarity ∧ e.similarity ≤ 1) :
    0 ≤ calculate_overall_parity c ∧ calculate_overall_parity c ≤ 1 := by
  rw [overall_parity_eq_mean]
  apply mean_or_zero_bounds
  intro x hx
  rcases List.mem_map.mp hx with ⟨e, he, hEq⟩
  rw [← hEq]
  exact h e he

/-- C8: every similarity the system produces lies in [0,1]: the
statement similarity of any two statement lists, the
`statement_similarity` of every block entry the comparator builds
(including the forced 0.0 of one-sided blocks), the per-file similarity
of any compared module pair, and the overall parity of any run whose
file entries carry similarities in [0,1]. -/
theorem C8_similarities_in_unit_interval :
    (∀ a b : List String,
        0 ≤ calculate_statement_similarity a b ∧ calculate_statement_similarity a b ≤ 1) ∧
    (∀ lfs cfs : List Function, ∀ nf ∈ (compare_functions lfs cfs).functions,
        ∀ nb ∈ nf.2.blocks,
          0 ≤ nb.2.statement_similarity ∧ nb.2.statement_similarity ≤ 1) ∧
    (∀ lfs cfs : List Function,
        0 ≤ file_similarity (compare_functions lfs cfs) ∧
          file_similarity (compare_functions lfs cfs) ≤ 1) ∧
    (∀ c : ComparisonResults, (∀ e ∈ c.files_compared, 0 ≤ e.similarity ∧ e.similarity ≤ 1) →
        0 ≤ calculate_overall_parity c ∧ calculate_overall_parity c ≤ 1) :=
  ⟨css_bounds, compare_functions_blocks_bounds, file_similarity_bounds, overall_parity_bounds⟩

/-- Witness for C8's hypothesis-bearing clauses at concrete inputs:
the comparison of the demo module pair, and an empty run. -/
theorem C8_witness :
    (0 ≤ (("bb0",
        ({ present_in_llvm := true, present_in_cranelift := false,
           statement_count_match := false, terminator_match := false,
           statement_similarity := 0, llvm_statement_count := 0,
           cranelift_statement_count := 0 } : BlockComparison)) :
          String × BlockComparison).2.statement_similarity ∧
      (("bb0",
        ({ present_in_llvm := true, present_in_cranelift := false,
           statement_count_match := false, terminator_match := false,
           statement_similarity := 0, llvm_statement_count := 0,
           cranelift_statement_count := 0 } : BlockComparison)) :
          String × BlockComparison).2.statement_similarity ≤ 1) ∧
    (0 ≤ calculate_overall_parity
        { files_compared := [], overall_similarity := 0, issues_found := [] } ∧
      calculate_overall_parity
        { files_compared := [], overall_similarity := 0, issues_found := [] } ≤ 1) :=
  ⟨C8_similarities_in_unit_interval.2.1 parityDemoLLVM parityDemoCranelift
      ("f", { signature_match := true, attribute_match := true, block_count_match := false,
              blocks := [("bb0", { present_in_llvm := true, present_in_cranelift := false,
                                   statement_count_match := false, terminator_match := false,
                                   statement_similarity := 0, llvm_statement_count := 0,
                                   cranelift_statement_count := 0 })],
              llvm_block_count := 1, cranelift_block_count := 0 })
      (by rw [show (compare_functions parityDemoLLVM parityDemoCranelift).functions =
            [("f", { signature_match := true, attribute_match := true, block_count_match := false,
                     blocks := [("bb0", { present_in_llvm := true, present_in_cranelift := false,
                                          statement_count_match := false, terminator_match := false,
                                          statement_similarity := 0, llvm_statement_count := 0,
                                          cranelift_statement_count := 0 })],
                     llvm_block_count := 1, cranelift_block_count := 0 })] from rfl]
          exact List.mem_singleton.mpr rfl)
      _ (List.mem_singleton.mpr rfl),
   C8_similarities_in_unit_interval.2.2.2 _ (by intro e he; cases he)⟩

/-- C9: the Critical Issues section of the parity report concatenates
the run-global `issues_found` list once per compared-file entry: with N
compared files every run-level issue string occurs N times as often as
in `issues_found` itself, and with zero compared files the section
collects nothing. -/
theorem C9_report_reads_run_issues_once_per_file (c : ComparisonResults) :
    report_critical_issues c =
      (c.files_compared.map (fun _ => c.issues_found)).flatten ∧
    (∀ s : String, (report_critical_issues c).count s =
      c.files_compared.length * c.issues_found.count s) ∧
    (c.files_compared.length = 0 → report_critical_issues c = []) := by
  have hjoin : report_critical_issues c =
      (c.files_compared.map (fun _ => c.issues_found)).flatten := by
    unfold report_critical_issues
    have hfold : ∀ (l : List FileEntry) (acc : List String),
        l.foldl (fun a x => a ++ c.issues_found) acc =
          acc ++ (l.map (fun _ => c.issues_found)).flatten := by
      intro l
      induction l with
      | nil => intro acc; simp
      | cons e es ih =>
        intro acc
        rw [List.foldl_cons, ih]
        simp [List.append_assoc]
    rw [hfold]
    simp
  refine ⟨hjoin, ?_, ?_⟩
  · intro s
    rw [hjoin]
    induction c.files_compared with
    | nil => simp
    | cons e es ih =>
      simp only [List.map_cons, List.flatten_cons, List.count_append, ih, List.length_cons]
      ring
  · intro h0
    rw [hjoin, List.length_eq_zero.mp h0]
    rfl

/-- Witness for C9's zero-files clause at a concrete run that carries a
run-level issue but compared no file. -/
theorem C9_witness :
    report_critical_issues
      { files_compared := [], overall_similarity := 0,
        issues_found := ["Cranelift output missing for a.mir"] } = [] :=
  (C9_report_reads_run_issues_once_per_file
    { files_compared := [], overall_similarity := 0,
      issues_found := ["Cranelift output missing for a.mir"] }).2.2 rfl

end MirCompare
